import Mathlib

/-!
Shallow embedding of the Yeastar PBX log-analyzer ingestion core
(`src/core/parsers.py`, `src/core/multiprocessing_analyzer.py`,
`src/config/patterns.py`).

Strings are modelled as `List Char`.  Python character classes (`\d`, `\w`,
`[A-Z]`, `\s`, `str.isdigit`, `str.lower`) are modelled over ASCII; the log
format only ever uses ASCII metacharacters.  Each regular expression used by
the source is backtracking-free on closer inspection (every greedy class is
followed by a literal that the class excludes), so each is modelled by the
equivalent deterministic scanner, documented at its definition.  Messages
handed to the secondary extractors come from the final `(.*)` group of a
line split on the newline character, so they contain no newline; `.` is
therefore modelled as matching any character.
-/

set_option maxRecDepth 20000

namespace Yeastar

/-- The single-quote character, written once so later definitions stay readable. -/
def squote : Char := Char.ofNat 39

/-- Python `str.strip()` whitespace set (ASCII part). -/
def pyIsSpace (c : Char) : Bool :=
  c == ' ' || c == '\t' || c == '\n' || c == '\r' || c == Char.ofNat 11 || c == Char.ofNat 12

/-- Python `line.strip()`: drop whitespace from both ends. -/
def stripL (l : List Char) : List Char :=
  ((l.dropWhile pyIsSpace).reverse.dropWhile pyIsSpace).reverse

/-- Python `str.lower()` (ASCII part). -/
def lowerL (l : List Char) : List Char := l.map Char.toLower

/-- Does `n` occur at the start of `h`? (list version of a starts-with test). -/
def startsWithL : List Char → List Char → Bool
  | [], _ => true
  | _ :: _, [] => false
  | a :: as, b :: bs => a == b && startsWithL as bs

/-- Python `n in h`: does `n` occur as a contiguous substring of `h`? -/
def occursIn : List Char → List Char → Bool
  | n, [] => n.isEmpty
  | n, c :: t => startsWithL n (c :: t) || occursIn n t

/-- Greedy `C+` for a character class `p`: the maximal nonempty run of
`p`-characters at the front, with the rest; fails when the run is empty. -/
def takeClass1 (p : Char → Bool) (l : List Char) : Option (List Char × List Char) :=
  let g := l.takeWhile p
  if g.isEmpty then none else some (g, l.drop g.length)

/-- Consume one expected literal character. -/
def expectChar (c : Char) : List Char → Option (List Char)
  | [] => none
  | x :: xs => if x == c then some xs else none

/-- Consume an expected literal string. -/
def expectLit : List Char → List Char → Option (List Char)
  | [], l => some l
  | _ :: _, [] => none
  | c :: cs, x :: xs => if x == c then expectLit cs xs else none

/-- Python `int(s)` on a nonempty ASCII digit string. -/
def digitsToNat (l : List Char) : Nat :=
  l.foldl (fun n c => n * 10 + (c.toNat - 48)) 0

/-- Python `s.isdigit()` (ASCII model): nonempty and all digits. -/
def isdigitS (l : List Char) : Bool := !l.isEmpty && l.all Char.isDigit

/-- The common best-effort field conversion
`int(v) if v.isdigit() else 0` used by `parse_cdr_entry`. -/
def toIntOr0 (l : List Char) : Nat := if isdigitS l then digitsToNat l else 0

/-- `values[i] if len(values) > i else ''`. -/
def getV (values : List (List Char)) (i : Nat) : List Char := (values.get? i).getD []

/-! ## Data model (`parsers.py` dicts become records) -/

/-- One parsed log line (the dict built by `LogParser.parse_log_entry`). -/
structure LogEntry where
  timestamp : List Char
  level : List Char
  thread_id : Nat
  module : List Char
  line_number : Nat
  message : List Char
  log_type : List Char
deriving DecidableEq

/-- `config/patterns.py` `LOG_TYPES` values. -/
def tSIP : List Char := "SIP".toList
def tCDR : List Char := "CDR".toList
def tREGISTRATION : List Char := "REGISTRATION".toList
def tDATABASE : List Char := "DATABASE".toList
def tSYSTEM : List Char := "SYSTEM".toList
def tCONFIG : List Char := "CONFIG".toList
def tGENERAL : List Char := "GENERAL".toList

/-- `LogParser.classify_log_type`: first matching keyword wins, in the
source's if/elif order. -/
def classify_log_type (message : List Char) : List Char :=
  if occursIn "SIP".toList message then tSIP
  else if occursIn "cdr".toList (lowerL message) then tCDR
  else if occursIn "REGISTER".toList message then tREGISTRATION
  else if occursIn "MySQL".toList message then tDATABASE
  else if occursIn "threadpool".toList message then tSYSTEM
  else if occursIn "config".toList (lowerL message) then tCONFIG
  else tGENERAL

/-- The six capture groups of the generic log-line pattern
`\[([^\]]+)\] ([A-Z]+)\[(\d+)\] ([^:]+):(\d+) (.*)`. -/
structure LogGroups where
  timestamp : List Char
  level : List Char
  thread_id : List Char
  module : List Char
  line_number : List Char
  message : List Char

/-- Deterministic model of `re.match` of the `log_entry` pattern.  Every
greedy piece (`[^\]]+`, `[A-Z]+`, `\d+`, `[^:]+`) is followed by a literal
its class excludes, so backtracking can never recover from a failed literal:
each group is exactly the maximal class run, and the trailing `(.*)` takes
the rest of the line up to a newline (`re.match` does not anchor the end). -/
def logEntryMatch (line : List Char) : Option LogGroups := do
  let r0 ← expectChar '[' line
  let (ts, r1) ← takeClass1 (fun c => c != ']') r0
  let r2 ← expectLit "] ".toList r1
  let (lv, r3) ← takeClass1 Char.isUpper r2
  let r4 ← expectChar '[' r3
  let (tid, r5) ← takeClass1 Char.isDigit r4
  let r6 ← expectLit "] ".toList r5
  let (md, r7) ← takeClass1 (fun c => c != ':') r6
  let r8 ← expectChar ':' r7
  let (ln, r9) ← takeClass1 Char.isDigit r8
  let r10 ← expectChar ' ' r9
  pure ⟨ts, lv, tid, md, ln, r10.takeWhile (fun c => c != '\n')⟩

/-- `LogParser.parse_log_entry`: on a pattern match build the entry dict,
classifying the message; otherwise `None`. -/
def parse_log_entry (line : List Char) : Option LogEntry :=
  (logEntryMatch line).map fun g =>
    { timestamp := g.timestamp
      level := g.level
      thread_id := digitsToNat g.thread_id
      module := g.module
      line_number := digitsToNat g.line_number
      message := g.message
      log_type := classify_log_type g.message }

/-! ## CDR parsing (`LogParser.parse_cdr_entry`) -/

/-- Index of the first occurrence of `n` in `h` (leftmost match position). -/
def firstOcc : List Char → List Char → Option Nat
  | n, [] => if n.isEmpty then some 0 else none
  | n, c :: t => if startsWithL n (c :: t) then some 0 else (firstOcc n t).map (· + 1)

/-- Index of the last occurrence of character `c`. -/
def lastIdxOf (c : Char) : List Char → Option Nat
  | [] => none
  | x :: xs =>
    match lastIdxOf c xs with
    | some i => some (i + 1)
    | none => if x == c then some 0 else none

/-- Greatest index `q ≤ bound` at which `n` starts inside `h`, if any. -/
def lastOccWithin (n h : List Char) : Nat → Option Nat
  | 0 => if startsWithL n h then some 0 else none
  | i + 1 =>
    if startsWithL n (h.drop (i + 1)) then some (i + 1) else lastOccWithin n h i

/-- Model of `re.search(r'INSERT INTO cdr.*VALUES \((.*)\)', message)`,
returning group 1.  The leftmost match starts at the first occurrence of the
literal `INSERT INTO cdr`; the greedy `.*` places `VALUES (` at the last
position after it that still leaves a `)` behind, and the greedy inner
`(.*)` then extends to the last `)` of the message. -/
def cdr_insert_group (message : List Char) : Option (List Char) :=
  match firstOcc "INSERT INTO cdr".toList message with
  | none => none
  | some p =>
    let tail := message.drop (p + 15)
    match lastIdxOf ')' tail with
    | none => none
    | some k =>
      if k < 8 then none
      else
        match lastOccWithin "VALUES (".toList tail (k - 8) with
        | none => none
        | some q => some ((tail.drop (q + 8)).take (k - (q + 8)))

/-- Python `current_value.strip(squote)`: drop quote characters from both ends. -/
def stripQuotes (l : List Char) : List Char :=
  ((l.dropWhile (· == squote)).reverse.dropWhile (· == squote)).reverse

/-- One iteration of the quote-aware value-splitting loop of
`parse_cdr_entry`.  State: (finished values, current value, in_quotes).
The final `if` of the Python loop body reads the updated `in_quotes`, so a
closing quote is never appended and an opening quote is appended only when
the current value is nonempty. -/
def cdrSplitStep (st : List (List Char) × List Char × Bool) (c : Char) :
    List (List Char) × List Char × Bool :=
  let (values, current, inq) := st
  if c == squote && !inq then
    (values, if current.isEmpty then current else current ++ [c], true)
  else if c == squote && inq then
    (values, current, false)
  else if c == ',' && !inq then
    (values ++ [stripQuotes current], [], inq)
  else
    (values, current ++ [c], inq)

/-- The full splitting loop: fold over the characters, then append the last
pending value only when it is nonempty. -/
def cdrSplitValues (vs : List Char) : List (List Char) :=
  let st := vs.foldl cdrSplitStep ([], [], false)
  if st.2.1.isEmpty then st.1 else st.1 ++ [stripQuotes st.2.1]

/-- One call detail record (the dict built by `parse_cdr_entry`).  The source
stores `json.dumps(values)` in `parsed_data`; the record here retains the
positional value vector itself, which that string serializes. -/
structure CallRecord where
  call_datetime : List Char
  timestamp_unix : Nat
  uid : List Char
  caller_id : List Char
  source_number : List Char
  source_name : List Char
  destination_number : List Char
  destination_name : List Char
  context : List Char
  channel : List Char
  destination_channel : List Char
  trunk : List Char
  last_app : List Char
  last_data : List Char
  duration : Nat
  ring_duration : Nat
  talk_duration : Nat
  disposition : List Char
  call_type : List Char
  unique_id : List Char
  parsed_data : List (List Char)
deriving DecidableEq

/-- `LogParser.parse_cdr_entry`: find the insert statement, split its value
list, and build a record only when at least 20 positional values are present.
Every operation in the Python `try` body is total here (each `int` call is
guarded by `isdigit`), so the `except` branch is unreachable. -/
def parse_cdr_entry (message : List Char) : Option CallRecord :=
  match cdr_insert_group message with
  | none => none
  | some values_str =>
    let values := cdrSplitValues values_str
    if 20 ≤ values.length then
      some
        { call_datetime := getV values 0
          timestamp_unix := toIntOr0 (getV values 1)
          uid := getV values 2
          caller_id := getV values 3
          source_number := getV values 4
          source_name := getV values 5
          destination_number := getV values 6
          destination_name := getV values 7
          context := getV values 8
          channel := getV values 9
          destination_channel := getV values 10
          trunk := getV values 11
          last_app := getV values 12
          last_data := getV values 13
          duration := toIntOr0 (getV values 14)
          ring_duration := toIntOr0 (getV values 15)
          talk_duration := toIntOr0 (getV values 16)
          disposition := getV values 17
          call_type := getV values 19
          unique_id := getV values 20
          parsed_data := values }
    else none

/-! ## Secondary extractors (`multiprocessing_analyzer.py` static methods) -/

/-- Model of `re.search` for a pattern that starts with a fixed literal:
scan left to right, and at each occurrence of the literal run the
deterministic tail scanner `tryTail` on the remaining characters; the first
position where the whole pattern completes wins (leftmost match). -/
def searchFrom (lit : List Char) (tryTail : List Char → Option α) :
    List Char → Option α
  | [] => if lit.isEmpty then tryTail [] else none
  | c :: t =>
    if startsWithL lit (c :: t) then
      match tryTail ((c :: t).drop lit.length) with
      | some r => some r
      | none => searchFrom lit tryTail t
    else searchFrom lit tryTail t

/-- Python `\w` (ASCII model). -/
def isWordChar (c : Char) : Bool := c.isAlphanum || c == '_'

/-- Tail of the two SIP patterns after their leading literal:
`(\w+) \((\d+) bytes\) to|from ([^:]+):(\d+)` with `mid` the
`" bytes) to "` / `" bytes) from "` literal.  Greedy classes are again each
followed by a literal they exclude, so the scan is deterministic.  Returns
(bytes, host, port). -/
def sipPayloadTail (mid : List Char) (l : List Char) :
    Option (Nat × List Char × Nat) := do
  let (_, r1) ← takeClass1 isWordChar l
  let r2 ← expectLit " (".toList r1
  let (d, r3) ← takeClass1 Char.isDigit r2
  let r4 ← expectLit mid r3
  let (h, r5) ← takeClass1 (fun c => c != ':') r4
  let r6 ← expectChar ':' r5
  let (p, _) ← takeClass1 Char.isDigit r6
  pure (digitsToNat d, h, digitsToNat p)

/-- One SIP transmit/receive event (the dict built by
`_extract_sip_transmit` / `_extract_sip_receive`; fields the source always
sets to `None` are `Option` fields holding `none`). -/
structure SipMessage where
  timestamp : List Char
  direction : List Char
  message_type : List Char
  method : List Char
  response_code : Option Nat
  response_text : Option (List Char)
  bytes_size : Nat
  remote_host : List Char
  remote_port : Nat
  headers : Option (List Char)
  body : Option (List Char)
  call_id : Option (List Char)
  from_user : Option (List Char)
  to_user : Option (List Char)
  via_branch : Option (List Char)
deriving DecidableEq

/-- `_extract_sip_transmit`: search
`Transmitting SIP (\w+) \((\d+) bytes\) to ([^:]+):(\d+)` in the message. -/
def extract_sip_transmit (entry : LogEntry) : Option SipMessage :=
  (searchFrom "Transmitting SIP ".toList
      (sipPayloadTail " bytes) to ".toList) entry.message).map
    fun d =>
      { timestamp := entry.timestamp
        direction := "TRANSMIT".toList
        message_type := "REQUEST".toList
        method := "Via:".toList
        response_code := none
        response_text := none
        bytes_size := d.1
        remote_host := d.2.1
        remote_port := d.2.2
        headers := none
        body := none
        call_id := none
        from_user := none
        to_user := none
        via_branch := none }

/-- `_extract_sip_receive`: search
`Received SIP (\w+) \((\d+) bytes\) from ([^:]+):(\d+)` in the message. -/
def extract_sip_receive (entry : LogEntry) : Option SipMessage :=
  (searchFrom "Received SIP ".toList
      (sipPayloadTail " bytes) from ".toList) entry.message).map
    fun d =>
      { timestamp := entry.timestamp
        direction := "RECEIVE".toList
        message_type := "RESPONSE".toList
        method := "Via:".toList
        response_code := none
        response_text := none
        bytes_size := d.1
        remote_host := d.2.1
        remote_port := d.2.2
        headers := none
        body := none
        call_id := none
        from_user := none
        to_user := none
        via_branch := none }

/-- One registration event (the dict built by `_extract_registration_event`). -/
structure RegistrationEvent where
  timestamp : List Char
  event_type : List Char
  attempt_number : Option Nat
  server_uri : Option (List Char)
  client_uri : Option (List Char)
  response_code : Option Nat
  response_text : Option (List Char)
  username : Option (List Char)
  realm : Option (List Char)
  nonce : Option (List Char)
  registration_duration : Option Nat
deriving DecidableEq

/-- The event-type keyword ladder of `_extract_registration_event`. -/
def regEventType (message : List Char) : List Char :=
  let ml := lowerL message
  if occursIn "REGISTER attempt".toList message || occursIn "register attempt".toList ml then
    "ATTEMPT".toList
  else if occursIn "REGISTER response".toList message || occursIn "register response".toList ml then
    "RESPONSE".toList
  else if occursIn "registration successful".toList ml then "SUCCESS".toList
  else if occursIn "registration failed".toList ml then "FAILURE".toList
  else if occursIn "success".toList ml || occursIn "ok".toList ml || occursIn "200".toList ml then
    "SUCCESS".toList
  else if occursIn "fail".toList ml || occursIn "error".toList ml ||
      occursIn "timeout".toList ml || occursIn "unauthorized".toList ml then
    "FAILURE".toList
  else "ATTEMPT".toList

/-- `[^:;]+:\d+` after a URI head, returning the matched characters.  Used
by both URI patterns; `[^:;]+` stops at the first `:` or `;`, which must be
a `:` followed by at least one digit (greedy, so all digits are consumed
into the match). -/
def hostPort (l : List Char) : Option (List Char × List Char) :=
  match takeClass1 (fun c => c != ':' && c != ';') l with
  | none => none
  | some (h, r) =>
    match expectChar ':' r with
    | none => none
    | some r2 =>
      match takeClass1 Char.isDigit r2 with
      | none => none
      | some (d, r3) => some (h ++ ':' :: d, r3)

/-- Tail of `sip:([^@]+@)?([^:;]+):(\d+)` after the `sip:` literal,
returning the matched characters.  The optional userinfo group is tried
first (greedy `?`); `[^@]+` stops at the first `@`, so each alternative is
deterministic. -/
def serverUriTail (l : List Char) : Option (List Char) :=
  let withUser : Option (List Char) :=
    match takeClass1 (fun c => c != '@') l with
    | none => none
    | some (u, r) =>
      match expectChar '@' r with
      | none => none
      | some r2 => (hostPort r2).map fun p => u ++ '@' :: p.1
  match withUser with
  | some m => some m
  | none => (hostPort l).map fun p => p.1

/-- Tail of `sip:([^@]+@[^:;]+):(\d+)` after the `sip:` literal (userinfo
mandatory), returning the matched characters. -/
def clientUriTail (l : List Char) : Option (List Char) :=
  match takeClass1 (fun c => c != '@') l with
  | none => none
  | some (u, r) =>
    match expectChar '@' r with
    | none => none
    | some r2 => (hostPort r2).map fun p => u ++ '@' :: p.1

/-- `server_match.group(0)` of `re.search(r'sip:([^@]+@)?([^:;]+):(\d+)', m)`. -/
def serverUriOf (message : List Char) : Option (List Char) :=
  searchFrom "sip:".toList
    (fun l => (serverUriTail l).map fun m => "sip:".toList ++ m) message

/-- `client_match.group(0)` of `re.search(r'sip:([^@]+@[^:;]+):(\d+)', m)`. -/
def clientUriOf (message : List Char) : Option (List Char) :=
  searchFrom "sip:".toList
    (fun l => (clientUriTail l).map fun m => "sip:".toList ++ m) message

/-- `_extract_registration_event`: always returns an event (the Python
function always returns a nonempty, hence truthy, dict). -/
def extract_registration_event (entry : LogEntry) : RegistrationEvent :=
  { timestamp := entry.timestamp
    event_type := regEventType entry.message
    attempt_number := none
    server_uri := serverUriOf entry.message
    client_uri := clientUriOf entry.message
    response_code := none
    response_text := none
    username := none
    realm := none
    nonce := none
    registration_duration := none }

/-- One system event (the dict built by `_extract_system_event`). -/
structure SystemEvent where
  timestamp : List Char
  event_type : List Char
  category : List Char
  description : List Char
  error_code : Option Nat
  details : Option (List Char)
deriving DecidableEq

/-- The category keyword ladder of `_extract_system_event`. -/
def sysCategory (message : List Char) : List Char :=
  let ml := lowerL message
  if occursIn "mysql".toList ml || occursIn "database".toList ml then "DATABASE".toList
  else if occursIn "sip".toList ml then "SIP".toList
  else if occursIn "config".toList ml then "CONFIG".toList
  else if occursIn "thread".toList ml then "SYSTEM".toList
  else "GENERAL".toList

/-- Tail of `error[:\s]*(\d+)` after the `error` literal: skip the maximal
run of colons/whitespace (none of which is a digit, so the greedy `*` is
deterministic) and require at least one digit. -/
def errorCodeTail (l : List Char) : Option Nat :=
  match takeClass1 Char.isDigit (l.dropWhile fun c => c == ':' || pyIsSpace c) with
  | some (d, _) => some (digitsToNat d)
  | none => none

/-- `re.search(r'error[:\s]*(\d+)', message.lower())` as an optional code. -/
def extractErrorCode (message : List Char) : Option Nat :=
  searchFrom "error".toList errorCodeTail (lowerL message)

/-- `_extract_system_event`: always returns an event (truthy dict). -/
def extract_system_event (entry : LogEntry) : SystemEvent :=
  { timestamp := entry.timestamp
    event_type := entry.level
    category := sysCategory entry.message
    description := entry.message
    error_code := extractErrorCode entry.message
    details := none }

/-! ## Chunk extraction (`_extract_all_data_from_chunk`) -/

/-- The records one line contributes to the chunk bundle (each of the five
lists has at most one element). -/
structure LineOut where
  entries : List LogEntry
  calls : List CallRecord
  sips : List SipMessage
  regs : List RegistrationEvent
  syss : List SystemEvent
deriving DecidableEq

def emptyOut : LineOut := ⟨[], [], [], [], []⟩

/-- The body of the per-line `try` block, for an already stripped, nonempty
line: parse the entry, then run the secondary extractors on its message,
with the SIP-transmit / SIP-receive / registration branches an if/elif
chain and the CDR and system-event checks independent `if`s. -/
def lineOut (l : List Char) : LineOut :=
  match parse_log_entry l with
  | none => emptyOut
  | some entry =>
    let calls :=
      if occursIn "INSERT INTO cdr".toList entry.message then
        match parse_cdr_entry entry.message with
        | some r => [r]
        | none => []
      else []
    let sipsRegs : List SipMessage × List RegistrationEvent :=
      if occursIn "Transmitting SIP".toList entry.message then
        (match extract_sip_transmit entry with
         | some s => [s]
         | none => [], [])
      else if occursIn "Received SIP".toList entry.message then
        (match extract_sip_receive entry with
         | some s => [s]
         | none => [], [])
      else if occursIn "REGISTER".toList entry.message ||
          occursIn "register".toList (lowerL entry.message) then
        ([], [extract_registration_event entry])
      else ([], [])
    let syss :=
      if entry.level == "ERROR".toList || entry.level == "WARNING".toList then
        [extract_system_event entry]
      else []
    ⟨[entry], calls, sipsRegs.1, sipsRegs.2, syss⟩

/-- The per-line `try` body as a fallible computation.  Every operation the
source performs inside the `try` is total in this model (all `int` calls
are applied to digit runs), so the body never actually fails; the `Except`
type records where an exception of the Python body would surface. -/
def lineTry (l : List Char) : Except Unit LineOut := Except.ok (lineOut l)

/-- One loop iteration around an arbitrary fallible per-line body `f`:
strip the line, skip it when empty, and catch any exception of the body
(`except Exception: pass`), in which case the line contributes nothing. -/
def skipOnError (f : List Char → Except Unit LineOut) (line : List Char) : LineOut :=
  let l := stripL line
  if l.isEmpty then emptyOut
  else
    match f l with
    | Except.ok o => o
    | Except.error _ => emptyOut

/-- One extraction result bundle (the dict returned per chunk). -/
structure Bundle where
  chunk_id : Nat
  log_entries : List LogEntry
  call_records : List CallRecord
  sip_messages : List SipMessage
  reg_events : List RegistrationEvent
  sys_events : List SystemEvent
deriving DecidableEq

def emptyBundle (start_idx : Nat) : Bundle :=
  ⟨start_idx, [], [], [], [], []⟩

/-- Append one line's contribution to the accumulated bundle lists. -/
def appendOut (b : Bundle) (o : LineOut) : Bundle :=
  { b with
    log_entries := b.log_entries ++ o.entries
    call_records := b.call_records ++ o.calls
    sip_messages := b.sip_messages ++ o.sips
    reg_events := b.reg_events ++ o.regs
    sys_events := b.sys_events ++ o.syss }

/-- The chunk loop over an arbitrary fallible per-line body. -/
def chunkWith (f : List Char → Except Unit LineOut) (start_idx : Nat)
    (lines : List (List Char)) : Bundle :=
  lines.foldl (fun acc line => appendOut acc (skipOnError f line))
    (emptyBundle start_idx)

/-- `MultiprocessingYeastarLogAnalyzer._extract_all_data_from_chunk`. -/
def extract_all_data_from_chunk (start_idx : Nat) (lines : List (List Char)) :
    Bundle :=
  chunkWith lineTry start_idx lines

/-- What one raw line contributes to its chunk's bundle. -/
def processLine (line : List Char) : LineOut := skipOnError lineTry line

/-! ## Chunking and the pipeline (`parse_log_file`) -/

/-- The chunk-building loop
`for i in range(0, total_lines, chunk_size): chunks.append((i, lines[i:i+chunk_size]))`,
generalized over the running start index.  (`chunk_size = 0` makes Python's
`range` raise; the recursion then steps by one so the model stays total.) -/
def makeChunksFrom (cs : Nat) (i : Nat) : List (List Char) → List (Nat × List (List Char))
  | [] => []
  | x :: xs => (i, (x :: xs).take cs) :: makeChunksFrom cs (i + cs) (xs.drop (cs - 1))
termination_by l => l.length
decreasing_by
  simp only [List.length_drop, List.length_cons]
  omega

/-- The chunk list built by `parse_log_file`. -/
def makeChunks (cs : Nat) (lines : List (List Char)) : List (Nat × List (List Char)) :=
  makeChunksFrom cs 0 lines

/-- The pure content of `parse_log_file`'s dispatch:
`pool.starmap(extract_all_data_from_chunk, chunks)`.  `Pool.starmap` returns
one result per argument tuple, in argument order, whatever the pool size,
so the worker count `workers` does not influence the value. -/
def pipelineBundles (chunk_size workers : Nat) (lines : List (List Char)) :
    List Bundle :=
  let _ := workers
  (makeChunks chunk_size lines).map fun c => extract_all_data_from_chunk c.1 c.2

/-- Per-type record totals of a bundle list, as accumulated by the writer's
running counters. -/
def totalsOf (bs : List Bundle) : Nat × Nat × Nat × Nat × Nat :=
  ((bs.map fun b => b.log_entries.length).sum,
   (bs.map fun b => b.call_records.length).sum,
   (bs.map fun b => b.sip_messages.length).sum,
   (bs.map fun b => b.reg_events.length).sum,
   (bs.map fun b => b.sys_events.length).sum)

/-- End-to-end per-type totals of a run of the pipeline. -/
def pipelineTotals (chunk_size workers : Nat) (lines : List (List Char)) :
    Nat × Nat × Nat × Nat × Nat :=
  totalsOf (pipelineBundles chunk_size workers lines)

/-! ## The batch database writer (`_batch_database_writer`) -/

/-- The writer's running per-type counters. -/
structure WriterTotals where
  entries : Nat
  calls : Nat
  sips : Nat
  regs : Nat
  syss : Nat
deriving DecidableEq

/-- Which of the five batch inserts of one bundle raises a store error. -/
structure InsertFaults where
  entriesFail : Bool
  callsFail : Bool
  sipsFail : Bool
  regsFail : Bool
  syssFail : Bool
deriving DecidableEq

/-- Processing of one received bundle by the writer: the five grouped
inserts run in a fixed order, each attempted only when its list is
nonempty, each followed by its counter update; an insert that raises jumps
to the loop's `except Exception` handler, abandoning the rest of the bundle
but not the loop. -/
def processBundle (t : WriterTotals) (b : Bundle) (f : InsertFaults) : WriterTotals :=
  if b.log_entries ≠ [] && f.entriesFail then t else
  let t := if b.log_entries ≠ [] then { t with entries := t.entries + b.log_entries.length } else t
  if b.call_records ≠ [] && f.callsFail then t else
  let t := if b.call_records ≠ [] then { t with calls := t.calls + b.call_records.length } else t
  if b.sip_messages ≠ [] && f.sipsFail then t else
  let t := if b.sip_messages ≠ [] then { t with sips := t.sips + b.sip_messages.length } else t
  if b.reg_events ≠ [] && f.regsFail then t else
  let t := if b.reg_events ≠ [] then { t with regs := t.regs + b.reg_events.length } else t
  if b.sys_events ≠ [] && f.syssFail then t else
  if b.sys_events ≠ [] then { t with syss := t.syss + b.sys_events.length } else t

/-- What one `result_queue.get(timeout=30)` call can yield to the writer:
a timeout (`queue.Empty`), a bundle (paired with the store faults its
inserts will hit), or the `None` sentinel. -/
inductive ChannelObs where
  | timeout : ChannelObs
  | bundle : Bundle → InsertFaults → ChannelObs
  | sentinel : ChannelObs
deriving DecidableEq

/-- The writer loop's state: still draining, or exited by `break`. -/
inductive WriterState where
  | running : WriterTotals → WriterState
  | done : WriterTotals → WriterState
deriving DecidableEq

/-- One iteration of the writer's `while True` loop: `except Empty:
continue` on a timeout, `break` only on the `None` sentinel, and `except
Exception` keeps the loop alive when a bundle's insert fails. -/
def writerStep (s : WriterState) (o : ChannelObs) : WriterState :=
  match s with
  | WriterState.done t => WriterState.done t
  | WriterState.running t =>
    match o with
    | ChannelObs.timeout => WriterState.running t
    | ChannelObs.sentinel => WriterState.done t
    | ChannelObs.bundle b f => WriterState.running (processBundle t b f)

/-- The writer run over a finite sequence of channel observations. -/
def writerRun (s : WriterState) (obs : List ChannelObs) : WriterState :=
  obs.foldl writerStep s

/-! ## Concrete inputs used by individual theorems and witnesses -/

/-- First line of the specified two-line end-to-end input. -/
def c1Line1 : List Char :=
  "[2024-01-01 10:00:00] ERROR[101] sip:2000 INSERT INTO cdr ... VALUES ('2024-01-01 10:00:00','1700000000','u1','100','100','Alice','200','Bob','ctx','ch1','ch2','trunk1','Dial','data','30','5','25','ANSWERED', '', 'normal', 'id1', '[]')".toList

/-- The bundle the chunk extractor produces on the two-line input. -/
def c1Bundle : Bundle := extract_all_data_from_chunk 0 [c1Line1, "garbage".toList]

/-- A message with an insert statement whose value list is too short. -/
def c2msg : List Char := "INSERT INTO cdr VALUES ('a','b')".toList

/-- The value-list group the search extracts from `c2msg`. -/
def c2vs : List Char := "'a','b'".toList

/-- A log line carrying a SIP transmit marker, a full 20-value insert
statement and ERROR level all at once. -/
def c10LineA : List Char :=
  "[t] ERROR[1] mod:1 Transmitting SIP INVITE (10 bytes) to 1.2.3.4:5060 INSERT INTO cdr VALUES ('1','2','3','4','5','6','7','8','9','10','11','12','13','14','15','16','17','18','19','20')".toList

/-- A WARNING log line mentioning `register` and carrying a 20-value insert
statement. -/
def c10LineB : List Char :=
  "[t] WARNING[2] mod:3 register INSERT INTO cdr VALUES ('1','2','3','4','5','6','7','8','9','10','11','12','13','14','15','16','17','18','19','20')".toList

/-! ## Helper lemmas -/

/-- The chunk loop is a fold of independent per-line contributions. -/
theorem foldl_appendOut (f : List Char → Except Unit LineOut)
    (lines : List (List Char)) (b : Bundle) :
    lines.foldl (fun acc line => appendOut acc (skipOnError f line)) b =
      { chunk_id := b.chunk_id
        log_entries := b.log_entries ++ lines.flatMap fun l => (skipOnError f l).entries
        call_records := b.call_records ++ lines.flatMap fun l => (skipOnError f l).calls
        sip_messages := b.sip_messages ++ lines.flatMap fun l => (skipOnError f l).sips
        reg_events := b.reg_events ++ lines.flatMap fun l => (skipOnError f l).regs
        sys_events := b.sys_events ++ lines.flatMap fun l => (skipOnError f l).syss } := by
  induction lines generalizing b with
  | nil => simp
  | cons x xs ih =>
    simp only [List.foldl_cons, List.flatMap_cons]
    rw [ih]
    simp [appendOut, List.append_assoc]

/-- Closed form of `chunkWith`. -/
theorem chunkWith_eq (f : List Char → Except Unit LineOut) (start : Nat)
    (lines : List (List Char)) :
    chunkWith f start lines =
      { chunk_id := start
        log_entries := lines.flatMap fun l => (skipOnError f l).entries
        call_records := lines.flatMap fun l => (skipOnError f l).calls
        sip_messages := lines.flatMap fun l => (skipOnError f l).sips
        reg_events := lines.flatMap fun l => (skipOnError f l).regs
        sys_events := lines.flatMap fun l => (skipOnError f l).syss } := by
  unfold chunkWith
  rw [foldl_appendOut]
  simp [emptyBundle]

/-- The chunks concatenate back to the original line sequence. -/
theorem makeChunksFrom_flatten (cs : Nat) (hcs : 0 < cs) :
    ∀ (n : Nat) (l : List (List Char)), l.length ≤ n → ∀ i,
      ((makeChunksFrom cs i l).map Prod.snd).flatten = l := by
  intro n
  induction n with
  | zero =>
    intro l hl i
    cases l with
    | nil => simp [makeChunksFrom]
    | cons x xs => simp at hl
  | succ n ih =>
    intro l hl i
    cases l with
    | nil => simp [makeChunksFrom]
    | cons x xs =>
      rw [makeChunksFrom]
      simp only [List.map_cons, List.flatten_cons]
      rw [ih (xs.drop (cs - 1)) (by simp only [List.length_drop]; simp only [List.length_cons] at hl; omega) (i + cs)]
      cases cs with
      | zero => omega
      | succ m =>
        simp only [List.take_succ_cons, Nat.succ_sub_one, List.cons_append,
          List.cons.injEq, true_and]
        exact List.take_append_drop m xs

/-- Every chunk except possibly the last has exactly `cs` lines. -/
theorem makeChunksFrom_len (cs : Nat) (hcs : 0 < cs) :
    ∀ (n : Nat) (l : List (List Char)), l.length ≤ n → ∀ i j c,
      (makeChunksFrom cs i l).get? j = some c →
      j + 1 < (makeChunksFrom cs i l).length → c.2.length = cs := by
  intro n
  induction n with
  | zero =>
    intro l hl i j c hc _
    cases l with
    | nil => simp [makeChunksFrom] at hc
    | cons x xs => simp at hl
  | succ n ih =>
    intro l hl i j c hc hj
    cases l with
    | nil => simp [makeChunksFrom] at hc
    | cons x xs =>
      rw [makeChunksFrom] at hc hj
      cases j with
      | zero =>
        simp only [List.get?_cons_zero, Option.some.injEq] at hc
        simp only [List.length_cons] at hj
        have hrest : makeChunksFrom cs (i + cs) (xs.drop (cs - 1)) ≠ [] := by
          intro h
          rw [h] at hj
          simp at hj
        have hdrop : xs.drop (cs - 1) ≠ [] := by
          intro h
          rw [h, makeChunksFrom] at hrest
          exact hrest rfl
        have hxs : cs ≤ xs.length := by
          by_contra hlt
          push_neg at hlt
          exact hdrop (List.drop_eq_nil_of_le (by omega))
        rw [← hc]
        simp
        omega
      | succ j =>
        simp only [List.get?_cons_succ] at hc
        simp only [List.length_cons] at hj
        exact ih (xs.drop (cs - 1)) (by simp only [List.length_drop]; simp only [List.length_cons] at hl; omega) (i + cs) j c hc (by omega)

/-- Chunk `j` is tagged with starting index `i + j * cs`. -/
theorem makeChunksFrom_fst (cs : Nat) :
    ∀ (n : Nat) (l : List (List Char)), l.length ≤ n → ∀ i j c,
      (makeChunksFrom cs i l).get? j = some c → c.1 = i + j * cs := by
  intro n
  induction n with
  | zero =>
    intro l hl i j c hc
    cases l with
    | nil => simp [makeChunksFrom] at hc
    | cons x xs => simp at hl
  | succ n ih =>
    intro l hl i j c hc
    cases l with
    | nil => simp [makeChunksFrom] at hc
    | cons x xs =>
      rw [makeChunksFrom] at hc
      cases j with
      | zero =>
        simp only [List.get?_cons_zero, Option.some.injEq] at hc
        rw [← hc]
        simp
      | succ j =>
        simp only [List.get?_cons_succ] at hc
        have := ih (xs.drop (cs - 1)) (by simp only [List.length_drop]; simp only [List.length_cons] at hl; omega) (i + cs) j c hc
        rw [this]
        ring

/-- A parsed entry's field list behaviour inside `lineOut`. -/
theorem lineOut_entries_of_some (l : List Char) (e : LogEntry)
    (h : parse_log_entry l = some e) : (lineOut l).entries = [e] := by
  unfold lineOut
  rw [h]

/-- An unmatched line contributes nothing inside `lineOut`. -/
theorem lineOut_of_none (l : List Char) (h : parse_log_entry l = none) :
    lineOut l = emptyOut := by
  unfold lineOut
  rw [h]

/-- `parse_log_entry` fails on the empty line. -/
theorem parse_log_entry_nil : parse_log_entry [] = none := rfl

/-! ## Claim theorems -/

/-- C1: on the two-line input of one CDR-insert ERROR line followed by
`garbage`, chunk extraction yields exactly 1 LogEntry, 1 CallRecord and
1 SystemEvent of type ERROR, no SipMessages and no RegistrationEvents, and
the second line contributes nothing. -/
theorem c1_end_to_end_counts :
    c1Bundle.log_entries.length = 1 ∧
    c1Bundle.call_records.length = 1 ∧
    c1Bundle.sys_events.length = 1 ∧
    c1Bundle.sys_events.map SystemEvent.event_type = ["ERROR".toList] ∧
    c1Bundle.sip_messages = [] ∧
    c1Bundle.reg_events = [] ∧
    processLine "garbage".toList = emptyOut := by
  decide

/-- C2: for a message whose call-detail insert statement is found (value
group `vs`), a CallRecord is produced exactly when the quote-aware split of
`vs` has at least 20 values; with fewer values the parse yields `none`. -/
theorem c2_call_record_iff_20_values (msg vs : List Char)
    (h : cdr_insert_group msg = some vs) :
    ((∃ r, parse_cdr_entry msg = some r) ↔ 20 ≤ (cdrSplitValues vs).length) ∧
    ((cdrSplitValues vs).length < 20 → parse_cdr_entry msg = none) := by
  unfold parse_cdr_entry
  rw [h]
  by_cases h20 : 20 ≤ (cdrSplitValues vs).length
  · exact ⟨by simp [h20], fun hlt => absurd h20 (by omega)⟩
  · exact ⟨by simp [h20], fun _ => by simp [h20]⟩

/-- C2 witness: a found insert statement with only 2 values produces no
record. -/
theorem c2_witness :
    ((∃ r, parse_cdr_entry c2msg = some r) ↔ 20 ≤ (cdrSplitValues c2vs).length) ∧
    ((cdrSplitValues c2vs).length < 20 → parse_cdr_entry c2msg = none) :=
  c2_call_record_iff_20_values c2msg c2vs (by decide)

/-- C3: classification is total and follows the fixed priority order
SIP → CDR → REGISTRATION → DATABASE → SYSTEM → CONFIG → GENERAL, first
matching keyword winning; in particular a message with a SIP keyword
classifies as SIP whatever else it contains. -/
theorem c3_classification_priority (m : List Char) :
    (occursIn "SIP".toList m = true → classify_log_type m = tSIP) ∧
    (occursIn "SIP".toList m = false →
      occursIn "cdr".toList (lowerL m) = true → classify_log_type m = tCDR) ∧
    (occursIn "SIP".toList m = false →
      occursIn "cdr".toList (lowerL m) = false →
      occursIn "REGISTER".toList m = true → classify_log_type m = tREGISTRATION) ∧
    (occursIn "SIP".toList m = false →
      occursIn "cdr".toList (lowerL m) = false →
      occursIn "REGISTER".toList m = false →
      occursIn "MySQL".toList m = true → classify_log_type m = tDATABASE) ∧
    (occursIn "SIP".toList m = false →
      occursIn "cdr".toList (lowerL m) = false →
      occursIn "REGISTER".toList m = false →
      occursIn "MySQL".toList m = false →
      occursIn "threadpool".toList m = true → classify_log_type m = tSYSTEM) ∧
    (occursIn "SIP".toList m = false →
      occursIn "cdr".toList (lowerL m) = false →
      occursIn "REGISTER".toList m = false →
      occursIn "MySQL".toList m = false →
      occursIn "threadpool".toList m = false →
      occursIn "config".toList (lowerL m) = true → classify_log_type m = tCONFIG) ∧
    (occursIn "SIP".toList m = false →
      occursIn "cdr".toList (lowerL m) = false →
      occursIn "REGISTER".toList m = false →
      occursIn "MySQL".toList m = false →
      occursIn "threadpool".toList m = false →
      occursIn "config".toList (lowerL m) = false → classify_log_type m = tGENERAL) ∧
    (classify_log_type m = tSIP ∨ classify_log_type m = tCDR ∨
      classify_log_type m = tREGISTRATION ∨ classify_log_type m = tDATABASE ∨
      classify_log_type m = tSYSTEM ∨ classify_log_type m = tCONFIG ∨
      classify_log_type m = tGENERAL) := by
  have htotal : classify_log_type m = tSIP ∨ classify_log_type m = tCDR ∨
      classify_log_type m = tREGISTRATION ∨ classify_log_type m = tDATABASE ∨
      classify_log_type m = tSYSTEM ∨ classify_log_type m = tCONFIG ∨
      classify_log_type m = tGENERAL := by
    unfold classify_log_type
    split_ifs <;> simp
  refine ⟨?_, ?_, ?_, ?_, ?_, ?_, ?_, htotal⟩ <;>
    (intros; simp_all [classify_log_type])

/-- C3 witness: each branch of the priority ladder taken at a concrete
message, including a message holding both a SIP and a CDR keyword. -/
theorem c3_witness :
    classify_log_type "SIP packet for cdr".toList = tSIP ∧
    classify_log_type "cdr row".toList = tCDR ∧
    classify_log_type "REGISTER sent".toList = tREGISTRATION ∧
    classify_log_type "MySQL up".toList = tDATABASE ∧
    classify_log_type "threadpool idle".toList = tSYSTEM ∧
    classify_log_type "config read".toList = tCONFIG ∧
    classify_log_type "hello".toList = tGENERAL :=
  ⟨(c3_classification_priority _).1 (by decide),
   (c3_classification_priority _).2.1 (by decide) (by decide),
   (c3_classification_priority _).2.2.1 (by decide) (by decide) (by decide),
   (c3_classification_priority _).2.2.2.1 (by decide) (by decide) (by decide) (by decide),
   (c3_classification_priority _).2.2.2.2.1 (by decide) (by decide) (by decide) (by decide)
     (by decide),
   (c3_classification_priority _).2.2.2.2.2.1 (by decide) (by decide) (by decide) (by decide)
     (by decide) (by decide),
   (c3_classification_priority _).2.2.2.2.2.2.1 (by decide) (by decide) (by decide) (by decide)
     (by decide) (by decide)⟩

/-- C4: a line yields at most one LogEntry; a line whose stripped text does
not match the pattern contributes nothing at all, and a matching line
contributes exactly its one entry. -/
theorem c4_at_most_one_entry (line : List Char) :
    (processLine line).entries.length ≤ 1 ∧
    (parse_log_entry (stripL line) = none → processLine line = emptyOut) ∧
    (∀ e, parse_log_entry (stripL line) = some e → (processLine line).entries = [e]) := by
  unfold processLine skipOnError
  by_cases he : (stripL line).isEmpty
  · have hnil : stripL line = [] := by
      cases h : stripL line with
      | nil => rfl
      | cons a as => rw [h] at he; simp [List.isEmpty] at he
    refine ⟨?_, ?_, ?_⟩
    · simp [he, emptyOut]
    · intro _; simp [he]
    · intro e hsome
      rw [hnil, parse_log_entry_nil] at hsome
      cases hsome
  · simp only [he, if_false, Bool.false_eq_true]
    refine ⟨?_, ?_, ?_⟩
    · simp only [lineTry]
      cases hp : parse_log_entry (stripL line) with
      | none => rw [lineOut_of_none _ hp]; simp [emptyOut]
      | some e => rw [lineOut_entries_of_some _ e hp]; simp
    · intro hp
      simp only [lineTry]
      rw [lineOut_of_none _ hp]
    · intro e hp
      simp only [lineTry]
      rw [lineOut_entries_of_some _ e hp]

/-- C4 witness: a matched and an unmatched concrete line. -/
theorem c4_witness :
    processLine "no pattern here".toList = emptyOut ∧
    (processLine "[t] A[1] m:2 x".toList).entries =
      [{ timestamp := "t".toList, level := "A".toList, thread_id := 1,
         module := "m".toList, line_number := 2, message := "x".toList,
         log_type := tGENERAL }] :=
  ⟨(c4_at_most_one_entry "no pattern here".toList).2.1 (by decide),
   (c4_at_most_one_entry "[t] A[1] m:2 x".toList).2.2 _ (by decide)⟩

/-- C5: the chunk loop is exception-free and line-local: for any fallible
per-line body, the bundle is the concatenation of independent per-line
contributions, a line whose body raises contributes nothing, and the actual
extractor is this loop applied to the source's per-line body. -/
theorem c5_line_failure_isolated (f : List Char → Except Unit LineOut)
    (start : Nat) (lines : List (List Char)) :
    chunkWith f start lines =
      { chunk_id := start
        log_entries := lines.flatMap fun l => (skipOnError f l).entries
        call_records := lines.flatMap fun l => (skipOnError f l).calls
        sip_messages := lines.flatMap fun l => (skipOnError f l).sips
        reg_events := lines.flatMap fun l => (skipOnError f l).regs
        sys_events := lines.flatMap fun l => (skipOnError f l).syss } ∧
    extract_all_data_from_chunk start lines = chunkWith lineTry start lines ∧
    (∀ l, f (stripL l) = Except.error () → skipOnError f l = emptyOut) := by
  refine ⟨chunkWith_eq f start lines, rfl, ?_⟩
  intro l herr
  unfold skipOnError
  by_cases he : (stripL l).isEmpty
  · simp [he]
  · simp [he, herr]

/-- C5 witness: a body that always raises yields an empty contribution for a
concrete nonempty line. -/
theorem c5_witness :
    skipOnError (fun _ => Except.error ()) "[t] A[1] m:2 x".toList = emptyOut :=
  (c5_line_failure_isolated (fun _ => Except.error ()) 0 []).2.2
    "[t] A[1] m:2 x".toList rfl

/-- `processLine` in closed form: empty stripped lines give nothing, others
run the (never-failing) `try` body. -/
theorem processLine_eq (line : List Char) :
    processLine line =
      if (stripL line).isEmpty then emptyOut else lineOut (stripL line) := rfl

/-- C6: for positive chunk size the chunker partitions the line sequence:
the chunks concatenate back to the input, all chunks except possibly the
last carry exactly `cs` lines, and chunk `j` is tagged `j * cs`. -/
theorem c6_chunker_partition (cs : Nat) (hcs : 0 < cs) (lines : List (List Char)) :
    ((makeChunks cs lines).map Prod.snd).flatten = lines ∧
    (∀ j c, (makeChunks cs lines).get? j = some c →
      j + 1 < (makeChunks cs lines).length → c.2.length = cs) ∧
    (∀ j c, (makeChunks cs lines).get? j = some c → c.1 = j * cs) := by
  unfold makeChunks
  refine ⟨makeChunksFrom_flatten cs hcs lines.length lines le_rfl 0, ?_, ?_⟩
  · intro j c hc hj
    exact makeChunksFrom_len cs hcs lines.length lines le_rfl 0 j c hc hj
  · intro j c hc
    have := makeChunksFrom_fst cs lines.length lines le_rfl 0 j c hc
    simpa using this

/-- The five concrete lines used by the chunker witnesses. -/
def c6Lines : List (List Char) :=
  ["a".toList, "b".toList, "c".toList, "d".toList, "e".toList]

/-- C6 witness: chunk size 2 on five lines; chunk 0 is full, chunk 2 is
tagged 4. -/
theorem c6_witness :
    ((makeChunks 2 c6Lines).map Prod.snd).flatten = c6Lines ∧
    ((0 : Nat), (["a".toList, "b".toList] : List (List Char))).2.length = 2 ∧
    ((4 : Nat), (["e".toList] : List (List Char))).1 = 2 * 2 := by
  have h := c6_chunker_partition 2 (by decide) c6Lines
  exact ⟨h.1,
    h.2.1 0 (0, ["a".toList, "b".toList])
      (by simp [makeChunks, makeChunksFrom, c6Lines])
      (by simp [makeChunks, makeChunksFrom, c6Lines]),
    h.2.2 2 (4, ["e".toList]) (by simp [makeChunks, makeChunksFrom, c6Lines])⟩

/-- Per-type counts of one extracted chunk are sums of per-line counts. -/
theorem extract_len_entries (start : Nat) (ls : List (List Char)) :
    (extract_all_data_from_chunk start ls).log_entries.length =
      (ls.map fun l => (processLine l).entries.length).sum := by
  show (chunkWith lineTry start ls).log_entries.length = _
  rw [chunkWith_eq]
  exact List.length_flatMap ..

theorem extract_len_calls (start : Nat) (ls : List (List Char)) :
    (extract_all_data_from_chunk start ls).call_records.length =
      (ls.map fun l => (processLine l).calls.length).sum := by
  show (chunkWith lineTry start ls).call_records.length = _
  rw [chunkWith_eq]
  exact List.length_flatMap ..

theorem extract_len_sips (start : Nat) (ls : List (List Char)) :
    (extract_all_data_from_chunk start ls).sip_messages.length =
      (ls.map fun l => (processLine l).sips.length).sum := by
  show (chunkWith lineTry start ls).sip_messages.length = _
  rw [chunkWith_eq]
  exact List.length_flatMap ..

theorem extract_len_regs (start : Nat) (ls : List (List Char)) :
    (extract_all_data_from_chunk start ls).reg_events.length =
      (ls.map fun l => (processLine l).regs.length).sum := by
  show (chunkWith lineTry start ls).reg_events.length = _
  rw [chunkWith_eq]
  exact List.length_flatMap ..

theorem extract_len_syss (start : Nat) (ls : List (List Char)) :
    (extract_all_data_from_chunk start ls).sys_events.length =
      (ls.map fun l => (processLine l).syss.length).sum := by
  show (chunkWith lineTry start ls).sys_events.length = _
  rw [chunkWith_eq]
  exact List.length_flatMap ..

/-- Summing a per-line quantity chunk by chunk equals summing it over the
whole line sequence. -/
theorem sum_map_chunks (cs : Nat) (hcs : 0 < cs) (lines : List (List Char))
    (g : List Char → Nat) :
    ((makeChunks cs lines).map fun c => (c.2.map g).sum).sum =
      (lines.map g).sum := by
  conv_rhs =>
    rw [show lines = ((makeChunks cs lines).map Prod.snd).flatten from
      (makeChunksFrom_flatten cs hcs lines.length lines le_rfl 0).symm]
  rw [List.map_flatten, List.sum_flatten]
  simp [List.map_map, Function.comp_def]

/-- The pipeline totals depend only on the input lines. -/
theorem pipelineTotals_eq (cs w : Nat) (hcs : 0 < cs) (lines : List (List Char)) :
    pipelineTotals cs w lines =
      ((lines.map fun l => (processLine l).entries.length).sum,
       (lines.map fun l => (processLine l).calls.length).sum,
       (lines.map fun l => (processLine l).sips.length).sum,
       (lines.map fun l => (processLine l).regs.length).sum,
       (lines.map fun l => (processLine l).syss.length).sum) := by
  unfold pipelineTotals pipelineBundles totalsOf
  simp only [List.map_map, Function.comp_def, Prod.mk.injEq]
  refine ⟨?_, ?_, ?_, ?_, ?_⟩
  · simp only [extract_len_entries]
    exact sum_map_chunks cs hcs lines _
  · simp only [extract_len_calls]
    exact sum_map_chunks cs hcs lines _
  · simp only [extract_len_sips]
    exact sum_map_chunks cs hcs lines _
  · simp only [extract_len_regs]
    exact sum_map_chunks cs hcs lines _
  · simp only [extract_len_syss]
    exact sum_map_chunks cs hcs lines _

/-- C7: pipeline totals per entity type are invariant under the choice of
positive chunk size and of worker-pool size. -/
theorem c7_totals_invariant (lines : List (List Char)) (cs1 cs2 w1 w2 : Nat)
    (h1 : 0 < cs1) (h2 : 0 < cs2) :
    pipelineTotals cs1 w1 lines = pipelineTotals cs2 w2 lines :=
  (pipelineTotals_eq cs1 w1 h1 lines).trans (pipelineTotals_eq cs2 w2 h2 lines).symm

/-- Lines for the C7 witness. -/
def c7Lines : List (List Char) :=
  ["[t] A[1] m:2 x".toList, "garbage".toList, [] ]

/-- C7 witness: chunk sizes 1 vs 2 and worker counts 1 vs 3 agree on a
concrete input. -/
theorem c7_witness : pipelineTotals 1 1 c7Lines = pipelineTotals 2 3 c7Lines :=
  c7_totals_invariant c7Lines 1 2 1 3 (by decide) (by decide)

/-- C8: chunk extraction is deterministic (two results from the same chunk
coincide), and a parsed entry's classified type is exactly the
classification of its message text. -/
theorem c8_extraction_deterministic (start : Nat) (lines : List (List Char)) :
    (∀ b1 b2, b1 = extract_all_data_from_chunk start lines →
      b2 = extract_all_data_from_chunk start lines → b1 = b2) ∧
    (∀ line e, parse_log_entry line = some e →
      e.log_type = classify_log_type e.message) := by
  constructor
  · intro b1 b2 hb1 hb2
    rw [hb1, hb2]
  · intro line e hp
    unfold parse_log_entry at hp
    cases hg : logEntryMatch line with
    | none => rw [hg] at hp; cases hp
    | some g =>
      rw [hg] at hp
      injection hp with hp
      rw [← hp]

/-- C8 witness: both components applied at concrete inputs. -/
theorem c8_witness :
    emptyBundle 0 = emptyBundle 0 ∧
    ({ timestamp := "t".toList, level := "A".toList, thread_id := 1,
       module := "m".toList, line_number := 2, message := "x".toList,
       log_type := tGENERAL } : LogEntry).log_type =
      classify_log_type "x".toList :=
  ⟨(c8_extraction_deterministic 0 []).1 (emptyBundle 0) (emptyBundle 0) rfl rfl,
   (c8_extraction_deterministic 0 []).2 "[t] A[1] m:2 x".toList _ (by decide)⟩

/-- C9: a receive-timeout leaves the writer running (any number of
consecutive timeouts does), a bundle — whatever insert faults it hits —
leaves it running, and the loop reaches its exit state exactly on the
sentinel. -/
theorem c9_writer_drain_loop (t : WriterTotals) (b : Bundle) (f : InsertFaults)
    (n : Nat) :
    writerStep (WriterState.running t) ChannelObs.timeout = WriterState.running t ∧
    writerRun (WriterState.running t) (List.replicate n ChannelObs.timeout) =
      WriterState.running t ∧
    (∃ u, writerStep (WriterState.running t) (ChannelObs.bundle b f) =
      WriterState.running u) ∧
    writerStep (WriterState.running t) ChannelObs.sentinel = WriterState.done t ∧
    (∀ o u, writerStep (WriterState.running t) o = WriterState.done u →
      o = ChannelObs.sentinel) := by
  refine ⟨rfl, ?_, ⟨processBundle t b f, rfl⟩, rfl, ?_⟩
  · induction n with
    | zero => rfl
    | succ k ih =>
      rw [List.replicate_succ]
      exact ih
  · intro o u h
    cases o with
    | timeout => cases h
    | bundle b2 f2 => cases h
    | sentinel => rfl

/-- C9 witness: the sentinel case of the exit characterization at concrete
totals. -/
theorem c9_witness : ChannelObs.sentinel = ChannelObs.sentinel :=
  (c9_writer_drain_loop ⟨0, 0, 0, 0, 0⟩ (emptyBundle 0)
    ⟨false, false, false, false, false⟩ 0).2.2.2.2 ChannelObs.sentinel
    ⟨0, 0, 0, 0, 0⟩ rfl

/-- A line never contributes both a SipMessage and a RegistrationEvent. -/
theorem lineOut_sips_regs (l : List Char) :
    (lineOut l).sips = [] ∨ (lineOut l).regs = [] := by
  unfold lineOut
  cases hp : parse_log_entry l with
  | none => left; rfl
  | some e =>
    by_cases h1 : occursIn "Transmitting SIP".toList e.message = true
    · right; simp_all
    · by_cases h2 : occursIn "Received SIP".toList e.message = true
      · right; simp_all
      · by_cases h3 : (occursIn "REGISTER".toList e.message ||
            occursIn "register".toList (lowerL e.message)) = true
        · left; simp_all
        · left; simp_all

/-- A line whose message carries a SIP transmit/receive marker is never
inspected for registration. -/
theorem lineOut_regs_of_sip_marker (l : List Char) (e : LogEntry)
    (hp : parse_log_entry l = some e)
    (hm : (occursIn "Transmitting SIP".toList e.message ||
      occursIn "Received SIP".toList e.message) = true) :
    (lineOut l).regs = [] := by
  unfold lineOut
  rw [hp]
  rw [Bool.or_eq_true] at hm
  rcases hm with h1 | h2
  · simp_all
  · by_cases h1 : occursIn "Transmitting SIP".toList e.message = true
    · simp_all
    · simp_all

/-- C10: the SIP-transmit, SIP-receive and registration branches are
mutually exclusive — no line yields both a SipMessage and a
RegistrationEvent, and a SIP marker in the message suppresses registration
inspection — while a CallRecord and a SystemEvent can each co-occur with a
SipMessage (line A) or with a RegistrationEvent (line B). -/
theorem c10_sip_reg_branches_exclusive :
    (∀ line, (processLine line).sips = [] ∨ (processLine line).regs = []) ∧
    (∀ line e, parse_log_entry (stripL line) = some e →
      (occursIn "Transmitting SIP".toList e.message ||
        occursIn "Received SIP".toList e.message) = true →
      (processLine line).regs = []) ∧
    ((processLine c10LineA).calls ≠ [] ∧ (processLine c10LineA).sips ≠ [] ∧
      (processLine c10LineA).syss ≠ [] ∧ (processLine c10LineA).regs = []) ∧
    ((processLine c10LineB).calls ≠ [] ∧ (processLine c10LineB).regs ≠ [] ∧
      (processLine c10LineB).syss ≠ []) := by
  refine ⟨?_, ?_, by decide, by decide⟩
  · intro line
    rw [processLine_eq]
    by_cases he : (stripL line).isEmpty
    · left; simp [he, emptyOut]
    · simp only [he, Bool.false_eq_true, if_false]
      exact lineOut_sips_regs _
  · intro line e hp hm
    rw [processLine_eq]
    by_cases he : (stripL line).isEmpty
    · simp [he, emptyOut]
    · simp only [he, Bool.false_eq_true, if_false]
      exact lineOut_regs_of_sip_marker _ e hp hm

/-- C10 witness: the marker component applied at a concrete transmit line. -/
theorem c10_witness :
    (processLine "[t] A[1] m:2 Transmitting SIP x".toList).regs = [] :=
  c10_sip_reg_branches_exclusive.2.1 "[t] A[1] m:2 Transmitting SIP x".toList
    { timestamp := "t".toList, level := "A".toList, thread_id := 1,
      module := "m".toList, line_number := 2,
      message := "Transmitting SIP x".toList, log_type := tSIP }
    (by decide) (by decide)

end Yeastar
